import Mathlib

/-
Verification development for the ODAT OpenLR decoding analyzer.

The definitions below are a shallow embedding of the Python sources under
src/odat.  External collaborators (the OpenLR decoder, the spatial database,
and geodesic helpers from the geoutils package) are modelled as oracle
parameters; everything the analyzer itself computes is embedded faithfully.
Real-valued quantities (lengths, offsets, coordinates, scores) are modelled
as rationals; geometric linestrings appearing in build_decoded_ls are
modelled as 1-D polylines, which instantiate the documented contract of the
external split/join helpers while keeping every definition executable.
-/

namespace ODAT

/-- The closed verdict enumeration of src/odat/analysis_result.py. -/
inductive AnalysisResult where
  | OK
  | MISSING_OR_MISCONFIGURED_ROAD
  | ALTERNATE_SHORTEST_PATH
  | FRC_MISMATCH
  | FOW_MISMATCH
  | BEARING_MISMATCH
  | PATH_LENGTH_MISMATCH
  | UNSUPPORTED_LOCATION_TYPE
  | MULTIPLE_ATTRIBUTE_MISMATCHES
  | UNKNOWN_ERROR
  | OUTSIDE_MAP_BOUNDS
  | DUPLICATE_OPENLR_CODE
  | BETTER_GEOLOCATION_FOUND
  | BETTER_BEARING_FOUND
  | BETTER_FRC_FOUND
  | BETTER_FOW_FOUND
  | BETTER_SCORE_FOUND
  | INVALID_GEOMETRY
deriving DecidableEq, Repr

/-- The diagnostic decoder configurations of src/odat/decoder_configs.py
(the module itself only defines parameter sets; the analyzer distinguishes
them by identity, which is all the embedding needs). -/
inductive DecoderConfig where
  | StrictConfig
  | RelaxedConfig
  | AnyPath
  | IgnoreFRC
  | IgnoreFOW
  | IgnorePathLength
  | IgnoreBearing
deriving DecidableEq, Repr

/-- Embedding of `Analyzer.determine_restricted_decoding_failure_cause`
(src/odat/analyzer.py lines 43-90).  The BufferReader decode attempts are
abstracted as an oracle `m : DecoderConfig → Bool` giving, for each config,
whether `buffer_map_reader.match(config=...)` succeeds. -/
def determine_restricted_decoding_failure_cause (m : DecoderConfig → Bool) :
    AnalysisResult :=
  if m .AnyPath = false then .MISSING_OR_MISCONFIGURED_ROAD
  else if m .IgnoreFRC then .FRC_MISMATCH
  else if m .IgnoreFOW then .FOW_MISMATCH
  else if m .IgnorePathLength then .PATH_LENGTH_MISMATCH
  else if m .IgnoreBearing then .BEARING_MISMATCH
  else .MULTIPLE_ATTRIBUTE_MISMATCHES

/-- A Line of the buffer overlay (src/odat/buffer_line.py).  Geometry is
left external: `find_lines_close_to` consults it only through the
`distance_to` helper, which the embedding receives as an oracle keyed by
the line id.  `contained_in_buffer` is fixed at construction
(`buffer.contains(geometry)`, line 32) and `entry_or_exit` starts false
(line 33) and is mutated by `find_lines_close_to`. -/
structure BLine where
  id : String
  contained_in_buffer : Bool
  entry_or_exit : Bool
deriving DecidableEq, Repr

/-- The BufferReader state that `find_lines_close_to` consults: the
coordinates of the location reference points (`self.loc_ref.points`) and
the overlay's lines (`self.lines.values()`, in iteration order). -/
structure BufferReaderState where
  points : List (ℚ × ℚ)
  lines : List BLine
deriving Repr

/-- The guard of src/odat/buffer_reader.py lines 238-244: the query
coordinate equals the first or the last LRP coordinate of the location
reference being analyzed (component-wise comparison of lon and lat). -/
def is_terminal_coord (pts : List (ℚ × ℚ)) (coord : ℚ × ℚ) : Bool :=
  (decide ((pts.headI).1 = coord.1) && decide ((pts.headI).2 = coord.2)) ||
  (decide ((pts.getLastI).1 = coord.1) && decide ((pts.getLastI).2 = coord.2))

/-- Embedding of `BufferReader.find_lines_close_to` (src/odat/buffer_reader.py
lines 236-255).  `dto id` is the oracle for `line.distance_to(coord)` of the
line with that id (distance depends only on the line's geometry).  The
function returns the updated reader state (the candidate Line objects are
mutated in place) together with the list of returned candidates. -/
def find_lines_close_to (st : BufferReaderState) (dto : String → ℚ)
    (coord : ℚ × ℚ) (dist : ℚ) : BufferReaderState × List BLine :=
  if is_terminal_coord st.points coord then
    -- candidates = lines within dist, regardless of containment;
    -- entry_or_exit is then set on each candidate not contained in the buffer
    let upd : BLine → BLine := fun l =>
      if dto l.id < dist ∧ l.contained_in_buffer = false then
        { l with entry_or_exit := true }
      else l
    ({ st with lines := st.lines.map upd },
     (st.lines.map upd).filter (fun l => decide (dto l.id < dist)))
  else
    (st, st.lines.filter
      (fun l => l.contained_in_buffer && decide (dto l.id < dist)))

/-- A Node of the buffer overlay (src/odat/buffer_node.py lines 36-52).
`contained_in_buffer` is fixed at construction as
`buffer.contains(Point(lon, lat))` (line 52). -/
structure BNode where
  id : String
  coord : ℚ × ℚ
  contained_in_buffer : Bool
deriving DecidableEq, Repr

/-- Embedding of `BufferReader.find_nodes_close_to` (src/odat/buffer_reader.py
lines 229-234).  `d` is the oracle for the external geoutils `distance`
helper. -/
def find_nodes_close_to (d : (ℚ × ℚ) → (ℚ × ℚ) → ℚ) (nodes : List BNode)
    (coord : ℚ × ℚ) (dist : ℚ) : List BNode :=
  nodes.filter
    (fun nd => nd.contained_in_buffer && decide (d coord nd.coord < dist))

/-- Modelled from the spec: the `ScoreCollector` decoder observer read by
`Analyzer.diagnose_score`.  The module that defines it
(src/odat/decoder_observer.py, imported at src/odat/analyzer.py line 25) is
not under src/; its fields are modelled from spec §3 ("Candidate: ...
per-axis scores {geo, bearing, frc, fow} ... rejection flags {frc_reject,
bearing_reject, score_reject}") and §4.9, matching how analyzer.py lines
521-548 reads them. -/
structure ScoreCollector where
  geo_score : ℚ
  bearing_score : ℚ
  frc_score : ℚ
  fow_score : ℚ
  frc_reject : Bool
  bearing_reject : Bool
  score_reject : Bool
deriving DecidableEq, Repr

/-- The scoring weights of the active decoder configuration
(`self.map_reader.config`), as read by analyzer.py lines 537-548. -/
structure ScoringConfig where
  geo_weight : ℚ
  bear_weight : ℚ
  frc_weight : ℚ
  fow_weight : ℚ
deriving DecidableEq, Repr

/-- The four weighted score deltas (outside minus inside) of
src/odat/analyzer.py lines 536-548, indexed in list order:
0 = geo, 1 = bearing, 2 = frc, 3 = fow. -/
def score_delta (cfg : ScoringConfig) (outc inc : ScoreCollector) :
    Fin 4 → ℚ
  | 0 => cfg.geo_weight * (outc.geo_score - inc.geo_score)
  | 1 => cfg.bear_weight * (outc.bearing_score - inc.bearing_score)
  | 2 => cfg.frc_weight * (outc.frc_score - inc.frc_score)
  | 3 => cfg.fow_weight * (outc.fow_score - inc.fow_score)

/-- The verdict the analyzer returns for each component index
(analyzer.py lines 550-569). -/
def score_verdict : Fin 4 → AnalysisResult
  | 0 => .BETTER_GEOLOCATION_FOUND
  | 1 => .BETTER_BEARING_FOUND
  | 2 => .BETTER_FRC_FOUND
  | 3 => .BETTER_FOW_FOUND

/-- Embedding of `Analyzer.diagnose_score` (src/odat/analyzer.py lines
476-569).  The two `make_candidates` invocations only serve to fill the two
ScoreCollectors; the embedding takes the filled collectors directly.
`components.index(max(components))` returns the FIRST index attaining the
maximum of the four-element list; the nested comparisons below compute
exactly that index. -/
def diagnose_score (cfg : ScoringConfig) (outc inc : ScoreCollector) :
    AnalysisResult :=
  if inc.frc_reject then .BETTER_FRC_FOUND
  else if inc.bearing_reject then .BETTER_BEARING_FOUND
  else if inc.score_reject then .BETTER_SCORE_FOUND
  else
    let c := score_delta cfg outc inc
    if c 0 ≥ c 1 ∧ c 0 ≥ c 2 ∧ c 0 ≥ c 3 then .BETTER_GEOLOCATION_FOUND
    else if c 1 ≥ c 2 ∧ c 1 ≥ c 3 then .BETTER_BEARING_FOUND
    else if c 2 ≥ c 3 then .BETTER_FRC_FOUND
    else .BETTER_FOW_FOUND

/-- A candidate Line as consulted by `Analyzer.compare_locations`: its id
and the ids of its start and end nodes. -/
structure CandLine where
  line_id : String
  start_node : String
  end_node : String
deriving DecidableEq, Repr

instance : Inhabited CandLine := ⟨⟨"", "", ""⟩⟩

/-- One entry of a CandidateCollector (src/odat/odat_observer.py lines
12-14, filled at lines 100-110): the LRP (abstracted to an identifier) and
the candidate chosen for it, ordered by LRP index as produced by
`[obs.candidates[i] for i in sorted(obs.candidates)]`. -/
structure CandPair where
  lrp : ℕ
  cand : CandLine
deriving DecidableEq, Repr

instance : Inhabited CandPair := ⟨⟨0, default⟩⟩

/-- The intermediate-LRP loop of `Analyzer.compare_locations`
(src/odat/analyzer.py lines 618-634): walk the zipped intermediate pairs
and report the first pair whose candidate line ids differ.  `diag` is the
embedding of the `diagnose_score` call made on divergence. -/
def compare_mid (diag : ℕ → CandLine → CandLine → Bool → AnalysisResult) :
    List CandPair → List CandPair → Option AnalysisResult
  | o :: os, i :: il =>
    if o.cand.line_id ≠ i.cand.line_id then
      some (diag o.lrp o.cand i.cand false)
    else compare_mid diag os il
  | _, _ => none

/-- `xs[1:-1]` of Python: the intermediate entries. -/
def mids (xs : List CandPair) : List CandPair := (xs.drop 1).dropLast

/-- Embedding of `Analyzer.compare_locations` (src/odat/analyzer.py lines
571-657).  `op` and `ip` are the outside (full map) and inside (buffer
overlay) candidate sequences, already ordered by LRP index; `diag lrp o i
is_last` abstracts `self.diagnose_score(lrp=..., outside=..., inside=...,
is_last=...)`. -/
def compare_locations (diag : ℕ → CandLine → CandLine → Bool → AnalysisResult)
    (op ip : List CandPair) : AnalysisResult :=
  let o0 := op.headI
  let i0 := ip.headI
  if o0.cand.line_id ≠ i0.cand.line_id ∧ o0.cand.end_node ≠ i0.cand.start_node
  then diag o0.lrp o0.cand i0.cand false
  else
    match compare_mid diag (mids op) (mids ip) with
    | some r => r
    | none =>
      let ol := op.getLastI
      let il := ip.getLastI
      if ol.cand.line_id ≠ il.cand.line_id ∧
          ol.cand.start_node ≠ il.cand.end_node
      then diag ol.lrp ol.cand il.cand true
      else .ALTERNATE_SHORTEST_PATH

/-- The data `Analyzer.analyze` extracts from a successful full-map decode
(src/odat/analyzer.py lines 307-350): the decoded location's offsets, the
result of `buffered_ls.covers(decoded_ls)`, the geometric quantities
entering the fraction, and the verdicts of the two sub-analyses the
non-covered branch can delegate to (`adjust_locref_and_match` and
`analyze_within_buffer`), abstracted as oracle values. -/
structure MatchOutcome where
  p_off : ℚ
  n_off : ℚ
  covers : Bool
  inter_len : ℚ
  decoded_len : ℚ
  adjust_result : AnalysisResult
  within_result : AnalysisResult
deriving Repr

/-- The environment of one `Analyzer.analyze` call (src/odat/analyzer.py
lines 245-350), with every external collaborator abstracted: presence and
verdict of the map-bounds check, the location-type check of the binary
decode, the full-map match outcome (`none` = decode failed), and the
cascade verdict used on the failure path. -/
structure AnalyzeEnv where
  bounds_present : Bool
  bounds_cover : Bool
  is_line_location : Bool
  matched : Option MatchOutcome
  cascade_result : AnalysisResult
deriving Repr

/-- Embedding of `Analyzer.analyze` (src/odat/analyzer.py lines 245-350),
returning the (AnalysisResult, fraction) part of its result triple.
Python computes `intersection(buffered_ls, decoded_ls).length /
decoded_ls.length` on the not-covered path; when `decoded_ls.length` is
zero that division raises ZeroDivisionError, modelled as `none`. -/
def analyze (env : AnalyzeEnv) : Option (AnalysisResult × ℚ) :=
  if env.bounds_present = true ∧ env.bounds_cover = false then
    some (.OUTSIDE_MAP_BOUNDS, 0)
  else if env.is_line_location = false then
    some (.UNSUPPORTED_LOCATION_TYPE, 0)
  else
    match env.matched with
    | none => some (env.cascade_result, 0)
    | some m =>
      if m.covers then some (.OK, 1)
      else if m.decoded_len = 0 then none
      else
        let frac := m.inter_len / m.decoded_len
        if 0 < m.p_off ∨ 0 < m.n_off then some (m.adjust_result, frac)
        else some (m.within_result, frac)

/-- A LocationReferencePoint (openlr), with the fields adjust_locref reads
and writes: coordinates, FRC/FOW/LFRCNP codes, bearing and distance to
next point (Python builds the latter two with `int(...)`). -/
structure LRP where
  lon : ℚ
  lat : ℚ
  frc : ℤ
  fow : ℤ
  bear : ℤ
  lfrcnp : ℤ
  dnp : ℤ
deriving DecidableEq, Repr

instance : Inhabited LRP := ⟨⟨0, 0, 0, 0, 0, 0, 0⟩⟩

/-- Python `int(...)` on a rational: truncation toward zero. -/
def pyInt (q : ℚ) : ℤ := if 0 ≤ q then ⌊q⌋ else -⌊-q⌋

/-- Oracle bundle for the external geoutils helpers used by
`Analyzer.adjust_locref` (split_line_at_point, line_string_length,
interpolate, bearing), over linestrings given as coordinate lists. -/
structure GeoOps where
  split_line_at_point : List (ℚ × ℚ) → (ℚ × ℚ) → List (ℚ × ℚ) × List (ℚ × ℚ)
  line_string_length : List (ℚ × ℚ) → ℚ
  interpolate : List (ℚ × ℚ) → ℚ → ℚ × ℚ
  bearing : (ℚ × ℚ) → (ℚ × ℚ) → ℚ

/-- Python object heap for LRP lists: a location reference's `points`
attribute is a pointer into this heap, so that list mutation through one
reference is visible through every alias. -/
def Heap : Type := ℕ → List LRP

/-- A LineLocationReference object: a pointer to its (shared, mutable)
points list plus its two offsets. -/
structure LocRefObj where
  ptr : ℕ
  poffs : ℚ
  noffs : ℚ
deriving DecidableEq, Repr

/-- The list computation of `Analyzer.adjust_locref` (src/odat/analyzer.py
lines 150-200) on the points list `lrps0`.  Statement order mirrors the
source: the `poffs > 0` branch writes index 0 first; the `noffs > 0`
branch then reads `lrps[-2]` from the POSSIBLY ALREADY MUTATED list (for a
two-point reference `lrps[-2]` is the entry the first branch just wrote),
writes index n-2, and finally writes index n-1. -/
def adjusted_points (g : GeoOps) (lrps0 : List LRP) (poffs noffs : ℚ)
    (ls : List (ℚ × ℚ)) : List LRP :=
  let lrps1 :=
    if 0 < poffs then
      let p1 := lrps0.getD 1 default
      let pr := (g.split_line_at_point ls (p1.lon, p1.lat)).1
      let l0 := lrps0.getD 0 default
      lrps0.set 0 ⟨pr.headI.1, pr.headI.2, l0.frc, l0.fow,
        pyInt (g.bearing pr.headI (g.interpolate pr 20)), l0.lfrcnp,
        pyInt (g.line_string_length pr)⟩
    else lrps0
  let n := lrps1.length
  if 0 < noffs then
    let p2 := lrps1.getD (n - 2) default
    let sf := (g.split_line_at_point ls (p2.lon, p2.lat)).2
    let lrps1a := lrps1.set (n - 2)
      ⟨p2.lon, p2.lat, p2.frc, p2.fow, p2.bear, p2.lfrcnp,
        pyInt (g.line_string_length sf)⟩
    let pl := lrps1a.getD (n - 1) default
    lrps1a.set (n - 1) ⟨sf.getLastI.1, sf.getLastI.2, pl.frc, pl.fow,
      pyInt (g.bearing sf.getLastI (g.interpolate sf.reverse 20)), pl.lfrcnp,
      pl.dnp⟩
  else lrps1

/-- Embedding of `Analyzer.adjust_locref` (src/odat/analyzer.py lines
133-202).  With both offsets zero the input reference is returned as is
(line 146-148).  Otherwise `lrps = locref.points` aliases the caller's
list and the replacement LRPs are assigned into it in place, so the heap
entry at the ORIGINAL reference's pointer is updated; the returned
reference is a fresh object built on the same points list with both
offsets cleared (line 202). -/
def adjust_locref (g : GeoOps) (σ : Heap) (ref : LocRefObj)
    (ls : List (ℚ × ℚ)) : Heap × LocRefObj :=
  if ref.poffs = 0 ∧ ref.noffs = 0 then (σ, ref)
  else
    (Function.update σ ref.ptr
      (adjusted_points g (σ ref.ptr) ref.poffs ref.noffs ls),
     ⟨ref.ptr, 0, 0⟩)

/-- The `create_buffer_reader` argument trace of
`Analyzer.adjust_locref_and_match` (src/odat/analyzer.py lines 377-394):
after `adjust_locref`, if decoding the adjusted reference fails
(`matchFails`, an oracle over the post-adjustment state), line 391 calls
`self.create_buffer_reader(encoded_loc_ref, buffered_ls)` with the
ORIGINAL encoded reference object; the embedding returns that argument
together with its points as the new BufferReader resolves them. -/
def adjust_locref_and_match_buffer_arg (g : GeoOps)
    (matchFails : Heap → LocRefObj → Bool) (σ : Heap) (encoded : LocRefObj)
    (ls : List (ℚ × ℚ)) : Option (LocRefObj × List LRP) :=
  let out := adjust_locref g σ encoded ls
  if matchFails out.1 out.2 then some (encoded, out.1 encoded.ptr) else none

/-- A value placed on the worker output queue (src/odat/run_analyzer.py). -/
inductive PyVal where
  | s (v : String)
  | res (r : AnalysisResult)
  | q (v : ℚ)
  | i (n : ℤ)
deriving DecidableEq, Repr

/-- A tuple enqueued on `q_out`. -/
structure OutTuple where
  fields : List PyVal
deriving DecidableEq, Repr

/-- Python runtime errors the worker model can raise. -/
inductive PyErr where
  | typeError
deriving DecidableEq, Repr

/-- The worker's local `enqueue` helper (src/odat/run_analyzer.py lines
183-184): `def enqueue(olr, category, frc, res, frac)` takes five required
positional parameters; a Python call with a different number of arguments
raises TypeError before the body runs. -/
def enqueue (args : List PyVal) : Except PyErr OutTuple :=
  if args.length = 5 then .ok ⟨args⟩ else .error .typeError

/-- One input-queue record as the worker sees it, with the analysis
abstracted: `raises = true` models `dat.analyze` raising an exception on
this record, otherwise `result`/`frac` are the analysis outcome. -/
structure WorkMsg where
  olr : String
  category : String
  frc : ℤ
  raises : Bool
  result : AnalysisResult
  frac : ℚ
deriving Repr

/-- The worker loop body for one record (src/odat/run_analyzer.py lines
205-217): on success, `enqueue(olr, category, frc, res, frac)` — five
arguments; in the `except` handler, `enqueue(f"{olr} : Error-...",
AnalysisResult.UNKNOWN_ERROR, 0.0)` — only THREE arguments. -/
def worker_handle (m : WorkMsg) : Except PyErr OutTuple :=
  if m.raises then
    enqueue [.s (m.olr ++ " : Error"), .res .UNKNOWN_ERROR, .q 0]
  else
    enqueue [.s m.olr, .s m.category, .i m.frc, .res m.result, .q m.frac]

/-- The worker's record loop (src/odat/run_analyzer.py lines 203-218): an
exception escaping `worker_handle` is uncaught (the `except` block is the
handler itself), so it propagates and the remaining records are never
processed. -/
def worker_loop : List WorkMsg → Except PyErr (List OutTuple)
  | [] => .ok []
  | m :: rest =>
    match worker_handle m with
    | .ok t =>
      match worker_loop rest with
      | .ok ts => .ok (t :: ts)
      | .error e => .error e
    | .error e => .error e

/-- Geodesic length of a 1-D polyline (the model instantiating the
external `LineString.length` / `line_string_length` contract for
build_decoded_ls). -/
def len1 : List ℚ → ℚ
  | x :: y :: r => |y - x| + len1 (y :: r)
  | _ => 0

/-- 1-D model of the external `geoutils.split_line(ls, d)` tail component:
the part of the polyline after geodesic distance `d` from its start, or
`none` when no part remains (`d` at least the total length) — this is the
`front`/`back` component the analyzer destructures at
src/odat/analyzer.py lines 117 and 123. -/
def splitTail : ℚ → List ℚ → Option (List ℚ)
  | d, x :: y :: r =>
    if d < |y - x| then
      some ((x + (if x ≤ y then d else -d)) :: y :: r)
    else splitTail (d - |y - x|) (y :: r)
  | _, _ => none

/-- 1-D model of `geoutils.join_lines`: concatenate contiguous geometries,
dropping a repeated joint point. -/
def joinLines (gs : List (List ℚ)) : List ℚ :=
  gs.foldl
    (fun acc g => acc ++ (if acc.getLast? = g.head? then g.drop 1 else g))
    []

/-- One line of a decoded LineLocation as build_decoded_ls consumes it:
its geometry and its `length` attribute. -/
structure DecodedLine where
  geometry : List ℚ
  length : ℚ
deriving DecidableEq, Repr

/-- The negative-offset cut of `Analyzer.build_decoded_ls`
(src/odat/analyzer.py lines 122-128): split the reversed remainder at the
reduced negative offset; a vanished tail collapses to a degenerate
two-point LineString at the remainder's start. -/
def cut_back (neg_off : ℚ) (front : List ℚ) : List ℚ :=
  if 0 < neg_off then
    match splitTail neg_off front.reverse with
    | none => [front.headI, front.headI]
    | some back => back.reverse
  else front

/-- Embedding of `Analyzer.build_decoded_ls` (src/odat/analyzer.py lines
91-131) over the 1-D geometry model.  `p_off`/`n_off` are the decoded
location's offsets; when the remaining length would be under 1 meter both
offsets are first reduced by `additional` (lines 110-115, written here as
one conditional per offset, exactly the values the two Python assignments
produce), then the positive offset is cut from the front (lines 116-121)
and the negative offset from the reversed remainder (lines 122-128),
producing a degenerate two-point LineString when a split leaves nothing. -/
def build_decoded_ls (lines : List DecodedLine) (p_off n_off : ℚ) :
    List ℚ :=
  let ls := joinLines (lines.map (fun l => l.geometry))
  if 0 < p_off ∨ 0 < n_off then
    let ls_length := (lines.map (fun l => l.length)).sum
    let pos_off :=
      if ls_length - p_off - n_off < 1 then
        max (p_off - max ((p_off + n_off - ls_length) / 2) 1) 0
      else p_off
    let neg_off :=
      if ls_length - p_off - n_off < 1 then
        max (n_off - max ((p_off + n_off - ls_length) / 2) 1) 0
      else n_off
    match (if 0 < pos_off then splitTail pos_off ls else some ls) with
    | none => [ls.getLastI, ls.getLastI]
    | some front => cut_back neg_off front
  else ls

end ODAT

namespace ODAT

/-- C1: on a buffer overlay whose strict decode has failed, the cascade
returns MISSING_OR_MISCONFIGURED_ROAD if the AnyPath decode fails, and
otherwise the verdict of the first succeeding decode in the fixed order
IgnoreFRC, IgnoreFOW, IgnorePathLength, IgnoreBearing, with
MULTIPLE_ATTRIBUTE_MISMATCHES only when all four individually fail. -/
theorem determine_failure_cause_order (m : DecoderConfig → Bool) :
    (m .AnyPath = false →
      determine_restricted_decoding_failure_cause m =
        .MISSING_OR_MISCONFIGURED_ROAD) ∧
    (m .AnyPath = true → m .IgnoreFRC = true →
      determine_restricted_decoding_failure_cause m = .FRC_MISMATCH) ∧
    (m .AnyPath = true → m .IgnoreFRC = false → m .IgnoreFOW = true →
      determine_restricted_decoding_failure_cause m = .FOW_MISMATCH) ∧
    (m .AnyPath = true → m .IgnoreFRC = false → m .IgnoreFOW = false →
      m .IgnorePathLength = true →
      determine_restricted_decoding_failure_cause m = .PATH_LENGTH_MISMATCH) ∧
    (m .AnyPath = true → m .IgnoreFRC = false → m .IgnoreFOW = false →
      m .IgnorePathLength = false → m .IgnoreBearing = true →
      determine_restricted_decoding_failure_cause m = .BEARING_MISMATCH) ∧
    (m .AnyPath = true → m .IgnoreFRC = false → m .IgnoreFOW = false →
      m .IgnorePathLength = false → m .IgnoreBearing = false →
      determine_restricted_decoding_failure_cause m =
        .MULTIPLE_ATTRIBUTE_MISMATCHES) := by
  refine ⟨?_, ?_, ?_, ?_, ?_, ?_⟩ <;>
    intros <;> simp_all [determine_restricted_decoding_failure_cause]

/-- Witness for C1: concrete evaluation of the cascade on an oracle for
which only the AnyPath and IgnoreFOW decodes succeed. -/
theorem determine_failure_cause_order_witness :
    determine_restricted_decoding_failure_cause
      (fun c => c = .AnyPath || c = .IgnoreFOW) = .FOW_MISMATCH :=
  (determine_failure_cause_order
    (fun c => c = .AnyPath || c = .IgnoreFOW)).2.2.1 (by decide) (by decide)
      (by decide)

/-- C2 counterexample: a Line that is contained in the buffer and lies
within `dist` of the first LRP coordinate is returned by
`find_lines_close_to`, but its `entry_or_exit` flag is NOT set: the code
(src/odat/buffer_reader.py lines 246-248) sets the flag only on returned
lines with `contained_in_buffer` false, while the claim asserts the flag is
set on every returned line. -/
theorem find_lines_terminal_counterexample :
    (find_lines_close_to
        ⟨[(0, 0), (1, 0)], [⟨"a", true, false⟩]⟩
        (fun _ => 0) (0, 0) 1).2 = [⟨"a", true, false⟩] ∧
    ((find_lines_close_to
        ⟨[(0, 0), (1, 0)], [⟨"a", true, false⟩]⟩
        (fun _ => 0) (0, 0) 1).2.all (fun l => l.entry_or_exit)) = false := by
  constructor
  · rfl
  · rfl

/-- C2 (amended): when the query coordinate equals the first or last LRP
coordinate, `find_lines_close_to` returns every Line of the overlay within
`dist` meters regardless of buffer containment, and sets
`entry_or_exit = true` on each returned Line that is NOT contained in the
buffer, while returned Lines contained in the buffer are left unchanged;
for any other coordinate it returns exactly the Lines with
`contained_in_buffer` true within `dist` meters and mutates nothing. -/
theorem find_lines_close_to_spec (st : BufferReaderState) (dto : String → ℚ)
    (coord : ℚ × ℚ) (dist : ℚ) :
    (is_terminal_coord st.points coord = true →
      ((find_lines_close_to st dto coord dist).2.map BLine.id =
        (st.lines.filter (fun l => decide (dto l.id < dist))).map BLine.id) ∧
      (∀ l ∈ (find_lines_close_to st dto coord dist).2,
        l.contained_in_buffer = false → l.entry_or_exit = true) ∧
      (∀ l ∈ (find_lines_close_to st dto coord dist).2,
        l.contained_in_buffer = true → l ∈ st.lines)) ∧
    (is_terminal_coord st.points coord = false →
      find_lines_close_to st dto coord dist =
        (st, st.lines.filter
          (fun l => l.contained_in_buffer && decide (dto l.id < dist)))) := by
  constructor
  · intro hterm
    refine ⟨?_, ?_, ?_⟩
    · simp only [find_lines_close_to, hterm, if_true]
      induction st.lines with
      | nil => rfl
      | cons l ls ih =>
        by_cases h1 : dto l.id < dist
        · by_cases h2 : l.contained_in_buffer = false <;>
            simp [h1, h2, ih]
        · by_cases h2 : l.contained_in_buffer = false <;>
            simp [h1, h2, ih]
    · intro l hl hcont
      simp only [find_lines_close_to, hterm, if_true, List.mem_filter,
        List.mem_map] at hl
      obtain ⟨⟨l0, _, hmap⟩, hdist⟩ := hl
      subst hmap
      by_cases h1 : dto l0.id < dist ∧ l0.contained_in_buffer = false
      · simp [h1]
      · simp only [h1, if_false] at hcont hdist ⊢
        simp only [decide_eq_true_eq] at hdist
        exact absurd ⟨hdist, hcont⟩ h1
    · intro l hl hcont
      simp only [find_lines_close_to, hterm, if_true, List.mem_filter,
        List.mem_map] at hl
      obtain ⟨⟨l0, hl0, hmap⟩, _⟩ := hl
      subst hmap
      by_cases h1 : dto l0.id < dist ∧ l0.contained_in_buffer = false
      · simp [h1] at hcont
      · simpa [h1] using hl0
  · intro hterm
    simp [find_lines_close_to, hterm]

/-- Witness for C2 (amended): concrete evaluation at the first LRP
coordinate with one contained and one straddling line in range. -/
theorem find_lines_close_to_spec_witness :
    ((find_lines_close_to
        ⟨[(0, 0), (1, 0)], [⟨"a", true, false⟩, ⟨"b", false, false⟩]⟩
        (fun _ => 0) (0, 0) 1).2.map BLine.id = ["a", "b"]) ∧
    (∀ l ∈ (find_lines_close_to
        ⟨[(0, 0), (1, 0)], [⟨"a", true, false⟩, ⟨"b", false, false⟩]⟩
        (fun _ => 0) (0, 0) 1).2,
      l.contained_in_buffer = false → l.entry_or_exit = true) := by
  have h := (find_lines_close_to_spec
    ⟨[(0, 0), (1, 0)], [⟨"a", true, false⟩, ⟨"b", false, false⟩]⟩
    (fun _ => 0) (0, 0) 1).1 (by norm_num [is_terminal_coord])
  exact ⟨by rw [h.1]; rfl, h.2.1⟩

/-- C3 counterexample: with identical outside and inside collectors (no
rejects, all four weighted deltas exactly zero) no axis has a positive
weighted delta, yet `diagnose_score` still returns
BETTER_GEOLOCATION_FOUND, because `components.index(max(components))`
selects the first maximum regardless of its sign. -/
theorem diagnose_score_counterexample :
    diagnose_score ⟨1, 1, 1, 1⟩ ⟨0, 0, 0, 0, false, false, false⟩
        ⟨0, 0, 0, 0, false, false, false⟩ = .BETTER_GEOLOCATION_FOUND ∧
    score_delta ⟨1, 1, 1, 1⟩ ⟨0, 0, 0, 0, false, false, false⟩
        ⟨0, 0, 0, 0, false, false, false⟩ 0 = 0 ∧
    score_delta ⟨1, 1, 1, 1⟩ ⟨0, 0, 0, 0, false, false, false⟩
        ⟨0, 0, 0, 0, false, false, false⟩ 1 = 0 ∧
    score_delta ⟨1, 1, 1, 1⟩ ⟨0, 0, 0, 0, false, false, false⟩
        ⟨0, 0, 0, 0, false, false, false⟩ 2 = 0 ∧
    score_delta ⟨1, 1, 1, 1⟩ ⟨0, 0, 0, 0, false, false, false⟩
        ⟨0, 0, 0, 0, false, false, false⟩ 3 = 0 := by
  refine ⟨?_, ?_, ?_, ?_, ?_⟩ <;> norm_num [diagnose_score, score_delta]

/-- C3 (amended): when the inside collector records no frc, bearing or
score reject, `diagnose_score` returns the verdict of the axis attaining
the LARGEST weighted delta (outside minus inside) — whether or not that
delta is positive — with ties broken by the fixed order
geo > bearing > frc > fow (the first index attaining the maximum). -/
theorem diagnose_score_argmax (cfg : ScoringConfig) (outc inc : ScoreCollector)
    (h1 : inc.frc_reject = false) (h2 : inc.bearing_reject = false)
    (h3 : inc.score_reject = false) :
    ∃ i : Fin 4,
      diagnose_score cfg outc inc = score_verdict i ∧
      (∀ j, score_delta cfg outc inc j ≤ score_delta cfg outc inc i) ∧
      (∀ j, score_delta cfg outc inc j = score_delta cfg outc inc i →
        i ≤ j) := by
  set c := score_delta cfg outc inc with hc
  by_cases hA : c 0 ≥ c 1 ∧ c 0 ≥ c 2 ∧ c 0 ≥ c 3
  · refine ⟨0, ?_, ?_, ?_⟩
    · simp [diagnose_score, h1, h2, h3, hc, hA]
      rfl
    · intro j; fin_cases j
      · exact le_refl _
      · exact hA.1
      · exact hA.2.1
      · exact hA.2.2
    · intro j _; exact Fin.zero_le j
  · by_cases hB : c 1 ≥ c 2 ∧ c 1 ≥ c 3
    · have h01 : c 0 < c 1 := by
        by_contra h
        push_neg at h
        exact hA ⟨h, le_trans hB.1 h, le_trans hB.2 h⟩
      refine ⟨1, ?_, ?_, ?_⟩
      · simp [diagnose_score, h1, h2, h3, hc, hA, hB]
        rfl
      · intro j; fin_cases j
        · exact h01.le
        · exact le_refl _
        · exact hB.1
        · exact hB.2
      · intro j hj; fin_cases j
        · exact absurd hj h01.ne
        · exact le_refl _
        · exact (by decide : (1 : Fin 4) ≤ 2)
        · exact (by decide : (1 : Fin 4) ≤ 3)
    · by_cases hC : c 2 ≥ c 3
      · have h12 : c 1 < c 2 := by
          by_contra h
          push_neg at h
          exact hB ⟨h, le_trans hC h⟩
        have h02 : c 0 < c 2 := by
          by_contra h
          push_neg at h
          exact hA ⟨le_trans h12.le h, h, le_trans hC h⟩
        refine ⟨2, ?_, ?_, ?_⟩
        · simp [diagnose_score, h1, h2, h3, hc, hA, hB, hC]
          rfl
        · intro j; fin_cases j
          · exact h02.le
          · exact h12.le
          · exact le_refl _
          · exact hC
        · intro j hj; fin_cases j
          · exact absurd hj h02.ne
          · exact absurd hj h12.ne
          · exact le_refl _
          · exact (by decide : (2 : Fin 4) ≤ 3)
      · push_neg at hC
        have h13 : c 1 < c 3 := by
          by_contra h
          push_neg at h
          exact hB ⟨le_trans hC.le h, h⟩
        have h03 : c 0 < c 3 := by
          by_contra h
          push_neg at h
          exact hA ⟨le_trans h13.le h, le_trans hC.le h, h⟩
        refine ⟨3, ?_, ?_, ?_⟩
        · have hC' : ¬ c 2 ≥ c 3 := not_le.mpr hC
          simp [diagnose_score, h1, h2, h3, hc, hA, hB, hC']
          rfl
        · intro j; fin_cases j
          · exact h03.le
          · exact h13.le
          · exact hC.le
          · exact le_refl _
        · intro j hj; fin_cases j
          · exact absurd hj h03.ne
          · exact absurd hj h13.ne
          · exact absurd hj hC.ne
          · exact le_refl _

/-- Witness for C3 (amended): concrete collectors where the geo axis
strictly dominates. -/
theorem diagnose_score_argmax_witness :
    ∃ i : Fin 4,
      diagnose_score ⟨1, 1, 1, 1⟩ ⟨1, 0, 0, 0, false, false, false⟩
          ⟨0, 0, 0, 0, false, false, false⟩ = score_verdict i ∧
      (∀ j, score_delta ⟨1, 1, 1, 1⟩ ⟨1, 0, 0, 0, false, false, false⟩
          ⟨0, 0, 0, 0, false, false, false⟩ j ≤
        score_delta ⟨1, 1, 1, 1⟩ ⟨1, 0, 0, 0, false, false, false⟩
          ⟨0, 0, 0, 0, false, false, false⟩ i) ∧
      (∀ j, score_delta ⟨1, 1, 1, 1⟩ ⟨1, 0, 0, 0, false, false, false⟩
          ⟨0, 0, 0, 0, false, false, false⟩ j =
        score_delta ⟨1, 1, 1, 1⟩ ⟨1, 0, 0, 0, false, false, false⟩
          ⟨0, 0, 0, 0, false, false, false⟩ i → i ≤ j) :=
  diagnose_score_argmax ⟨1, 1, 1, 1⟩ ⟨1, 0, 0, 0, false, false, false⟩
    ⟨0, 0, 0, 0, false, false, false⟩ rfl rfl rfl

/-- The intermediate walk returns nothing when all paired intermediate
candidate line ids agree. -/
theorem compare_mid_eq_none
    {diag : ℕ → CandLine → CandLine → Bool → AnalysisResult} :
    ∀ {a b : List CandPair},
    (∀ k (h1 : k < a.length) (h2 : k < b.length),
      (a.get ⟨k, h1⟩).cand.line_id = (b.get ⟨k, h2⟩).cand.line_id) →
    compare_mid diag a b = none := by
  intro a
  induction a with
  | nil => intro b _; cases b <;> rfl
  | cons o os ih =>
    intro b h
    cases b with
    | nil => rfl
    | cons i il =>
      have h0 : o.cand.line_id = i.cand.line_id := by
        simpa using h 0 (by simp) (by simp)
      simp only [compare_mid, h0, ne_eq, not_true_eq_false, if_false]
      exact ih fun k h1 h2 => by
        simpa using h (k + 1) (Nat.succ_lt_succ h1) (Nat.succ_lt_succ h2)

/-- The intermediate walk reports the FIRST index at which the paired
candidate line ids differ. -/
theorem compare_mid_eq_some
    {diag : ℕ → CandLine → CandLine → Bool → AnalysisResult} :
    ∀ (a b : List CandPair) (k : ℕ) (h1 : k < a.length) (h2 : k < b.length),
    (a.get ⟨k, h1⟩).cand.line_id ≠ (b.get ⟨k, h2⟩).cand.line_id →
    (∀ j (hj1 : j < a.length) (hj2 : j < b.length), j < k →
      (a.get ⟨j, hj1⟩).cand.line_id = (b.get ⟨j, hj2⟩).cand.line_id) →
    compare_mid diag a b =
      some (diag (a.get ⟨k, h1⟩).lrp (a.get ⟨k, h1⟩).cand
        (b.get ⟨k, h2⟩).cand false) := by
  intro a
  induction a with
  | nil => intro b k h1; exact absurd h1 (by simp)
  | cons o os ih =>
    intro b k h1 h2 hne hmin
    cases b with
    | nil => exact absurd h2 (by simp)
    | cons i il =>
      cases k with
      | zero =>
        have hne0 : o.cand.line_id ≠ i.cand.line_id := hne
        simp [compare_mid, hne0]
      | succ k =>
        have h0 : o.cand.line_id = i.cand.line_id := by
          simpa using hmin 0 (by simp) (by simp) (Nat.succ_pos k)
        simp only [compare_mid, h0, ne_eq, not_true_eq_false, if_false,
          List.get_cons_succ]
        have hne' := hne
        simp only [List.get_cons_succ] at hne'
        exact ih il k (Nat.lt_of_succ_lt_succ h1) (Nat.lt_of_succ_lt_succ h2)
          hne'
          fun j hj1 hj2 hjk => by
            simpa using hmin (j + 1) (Nat.succ_lt_succ hj1)
              (Nat.succ_lt_succ hj2) (Nat.succ_lt_succ hjk)

/-- C4: comparing equal-length outside and inside candidate sequences,
`compare_locations` returns ALTERNATE_SHORTEST_PATH when the first pair is
aligned (equal line or outside end node = inside start node), every
intermediate pair has equal lines, and the last pair is aligned (equal
line or outside start node = inside end node); otherwise it diagnoses the
first divergence found, in the order first LRP, intermediates, last LRP,
and returns that diagnose_score verdict. -/
theorem compare_locations_spec
    (diag : ℕ → CandLine → CandLine → Bool → AnalysisResult)
    (op ip : List CandPair) (hne : op ≠ [])
    (hlen : op.length = ip.length)
    (hlrp : ∀ pr ∈ (mids op).zip (mids ip), pr.1.lrp = pr.2.lrp) :
    ((op.headI.cand.line_id = ip.headI.cand.line_id ∨
        op.headI.cand.end_node = ip.headI.cand.start_node) →
      (∀ k (h1 : k < (mids op).length) (h2 : k < (mids ip).length),
        ((mids op).get ⟨k, h1⟩).cand.line_id =
          ((mids ip).get ⟨k, h2⟩).cand.line_id) →
      (op.getLastI.cand.line_id = ip.getLastI.cand.line_id ∨
        op.getLastI.cand.start_node = ip.getLastI.cand.end_node) →
      compare_locations diag op ip = .ALTERNATE_SHORTEST_PATH) ∧
    (op.headI.cand.line_id ≠ ip.headI.cand.line_id →
      op.headI.cand.end_node ≠ ip.headI.cand.start_node →
      compare_locations diag op ip =
        diag op.headI.lrp op.headI.cand ip.headI.cand false) ∧
    ((op.headI.cand.line_id = ip.headI.cand.line_id ∨
        op.headI.cand.end_node = ip.headI.cand.start_node) →
      ∀ k (h1 : k < (mids op).length) (h2 : k < (mids ip).length),
        ((mids op).get ⟨k, h1⟩).cand.line_id ≠
          ((mids ip).get ⟨k, h2⟩).cand.line_id →
        (∀ j (hj1 : j < (mids op).length) (hj2 : j < (mids ip).length),
          j < k → ((mids op).get ⟨j, hj1⟩).cand.line_id =
            ((mids ip).get ⟨j, hj2⟩).cand.line_id) →
        compare_locations diag op ip =
          diag ((mids op).get ⟨k, h1⟩).lrp ((mids op).get ⟨k, h1⟩).cand
            ((mids ip).get ⟨k, h2⟩).cand false) ∧
    ((op.headI.cand.line_id = ip.headI.cand.line_id ∨
        op.headI.cand.end_node = ip.headI.cand.start_node) →
      (∀ k (h1 : k < (mids op).length) (h2 : k < (mids ip).length),
        ((mids op).get ⟨k, h1⟩).cand.line_id =
          ((mids ip).get ⟨k, h2⟩).cand.line_id) →
      op.getLastI.cand.line_id ≠ ip.getLastI.cand.line_id →
      op.getLastI.cand.start_node ≠ ip.getLastI.cand.end_node →
      compare_locations diag op ip =
        diag op.getLastI.lrp op.getLastI.cand ip.getLastI.cand true) := by
  refine ⟨?_, ?_, ?_, ?_⟩
  · intro hfirst hmid hlast
    have hf : ¬ (op.headI.cand.line_id ≠ ip.headI.cand.line_id ∧
        op.headI.cand.end_node ≠ ip.headI.cand.start_node) := by
      rcases hfirst with h | h
      · exact fun hcon => hcon.1 h
      · exact fun hcon => hcon.2 h
    have hl : ¬ (op.getLastI.cand.line_id ≠ ip.getLastI.cand.line_id ∧
        op.getLastI.cand.start_node ≠ ip.getLastI.cand.end_node) := by
      rcases hlast with h | h
      · exact fun hcon => hcon.1 h
      · exact fun hcon => hcon.2 h
    simp only [compare_locations, hf, if_false, compare_mid_eq_none hmid,
      hl]
  · intro hid hnode
    simp only [compare_locations, hid, hnode, ne_eq, not_false_eq_true,
      and_self, if_true]
  · intro hfirst k h1 h2 hk hmin
    have hf : ¬ (op.headI.cand.line_id ≠ ip.headI.cand.line_id ∧
        op.headI.cand.end_node ≠ ip.headI.cand.start_node) := by
      rcases hfirst with h | h
      · exact fun hcon => hcon.1 h
      · exact fun hcon => hcon.2 h
    simp only [compare_locations, hf, if_false,
      compare_mid_eq_some (mids op) (mids ip) k h1 h2 hk hmin]
  · intro hfirst hmid hid hnode
    have hf : ¬ (op.headI.cand.line_id ≠ ip.headI.cand.line_id ∧
        op.headI.cand.end_node ≠ ip.headI.cand.start_node) := by
      rcases hfirst with h | h
      · exact fun hcon => hcon.1 h
      · exact fun hcon => hcon.2 h
    simp only [compare_locations, hf, if_false, compare_mid_eq_none hmid,
      hid, hnode, ne_eq, not_false_eq_true, and_self, if_true]

/-- Witness for C4: two aligned two-LRP candidate sequences yield
ALTERNATE_SHORTEST_PATH. -/
theorem compare_locations_spec_witness :
    compare_locations (fun _ _ _ _ => .OK)
      [⟨0, ⟨"x", "u", "v"⟩⟩, ⟨1, ⟨"y", "v", "w"⟩⟩]
      [⟨0, ⟨"x", "u", "v"⟩⟩, ⟨1, ⟨"y", "v", "w"⟩⟩] =
      .ALTERNATE_SHORTEST_PATH := by
  refine (compare_locations_spec (fun _ _ _ _ => .OK)
    [⟨0, ⟨"x", "u", "v"⟩⟩, ⟨1, ⟨"y", "v", "w"⟩⟩]
    [⟨0, ⟨"x", "u", "v"⟩⟩, ⟨1, ⟨"y", "v", "w"⟩⟩]
    (by simp) rfl (by simp [mids]) ).1 (Or.inl rfl) ?_ (Or.inl rfl)
  intro k h1 h2
  simp [mids] at h1

/-- C5: whenever `analyze` returns, its fraction lies in [0, 1]; on the
not-covered path it equals intersection length over decoded length, and
every other return path yields exactly 0 or exactly 1.  The hypothesis
records the geometric facts the code relies on from the external geometry
library: an intersection with the buffer polygon has nonnegative length
bounded by the length of the decoded linestring. -/
theorem analyze_fraction_unit_interval (env : AnalyzeEnv)
    (hgeo : ∀ m, env.matched = some m →
      0 ≤ m.inter_len ∧ m.inter_len ≤ m.decoded_len) :
    ∀ r f, analyze env = some (r, f) →
      (0 ≤ f ∧ f ≤ 1) ∧
      (f = 0 ∨ f = 1 ∨ ∃ m, env.matched = some m ∧ m.covers = false ∧
        f = m.inter_len / m.decoded_len) := by
  intro r f hrf
  unfold analyze at hrf
  by_cases hb : env.bounds_present = true ∧ env.bounds_cover = false
  · rw [if_pos hb] at hrf
    simp only [Option.some.injEq, Prod.mk.injEq] at hrf
    obtain ⟨-, hf⟩ := hrf
    subst hf
    norm_num
  · rw [if_neg hb] at hrf
    by_cases hl : env.is_line_location = false
    · rw [if_pos hl] at hrf
      simp only [Option.some.injEq, Prod.mk.injEq] at hrf
      obtain ⟨-, hf⟩ := hrf
      subst hf
      norm_num
    · rw [if_neg hl] at hrf
      cases hm : env.matched with
      | none =>
        rw [hm] at hrf
        simp only [Option.some.injEq, Prod.mk.injEq] at hrf
        obtain ⟨-, hf⟩ := hrf
        subst hf
        norm_num
      | some m =>
        rw [hm] at hrf
        simp only [] at hrf
        obtain ⟨h0, h1⟩ := hgeo m hm
        by_cases hc : m.covers = true
        · rw [if_pos hc] at hrf
          simp only [Option.some.injEq, Prod.mk.injEq] at hrf
          obtain ⟨-, hf⟩ := hrf
          subst hf
          norm_num
        · rw [if_neg hc] at hrf
          by_cases hz : m.decoded_len = 0
          · rw [if_pos hz] at hrf
            exact absurd hrf (by simp)
          · rw [if_neg hz] at hrf
            have hpos : 0 < m.decoded_len :=
              lt_of_le_of_ne (h0.trans h1) (Ne.symm hz)
            have hfr : (0 ≤ m.inter_len / m.decoded_len ∧
                m.inter_len / m.decoded_len ≤ 1) :=
              ⟨div_nonneg h0 hpos.le, (div_le_one hpos).mpr h1⟩
            have hcov : m.covers = false := by simpa using hc
            by_cases ho : 0 < m.p_off ∨ 0 < m.n_off
            · rw [if_pos ho] at hrf
              simp only [Option.some.injEq, Prod.mk.injEq] at hrf
              obtain ⟨-, hf⟩ := hrf
              subst hf
              exact ⟨hfr, Or.inr (Or.inr ⟨m, rfl, hcov, rfl⟩)⟩
            · rw [if_neg ho] at hrf
              simp only [Option.some.injEq, Prod.mk.injEq] at hrf
              obtain ⟨-, hf⟩ := hrf
              subst hf
              exact ⟨hfr, Or.inr (Or.inr ⟨m, rfl, hcov, rfl⟩)⟩

/-- Witness for C5: a concrete environment whose decode succeeds, is not
covered, and yields fraction 1/2. -/
theorem analyze_fraction_unit_interval_witness :
    (0 ≤ (1 / 2 : ℚ) ∧ (1 / 2 : ℚ) ≤ 1) ∧
    ((1 / 2 : ℚ) = 0 ∨ (1 / 2 : ℚ) = 1 ∨
      ∃ m, (AnalyzeEnv.mk false true true
          (some ⟨0, 0, false, 1, 2, .OK, .OK⟩) .OK).matched = some m ∧
        m.covers = false ∧ (1 / 2 : ℚ) = m.inter_len / m.decoded_len) :=
  analyze_fraction_unit_interval
    (AnalyzeEnv.mk false true true (some ⟨0, 0, false, 1, 2, .OK, .OK⟩) .OK)
    (by rintro m ⟨rfl⟩; norm_num)
    .OK (1 / 2) (by norm_num [analyze])

/-- C6: on a location reference with both offsets zero, `adjust_locref`
is the identity: it returns the reference itself and leaves the heap (and
hence the reference's points list) untouched. -/
theorem adjust_locref_identity_no_offsets (g : GeoOps) (σ : Heap)
    (ref : LocRefObj) (ls : List (ℚ × ℚ)) (h1 : ref.poffs = 0)
    (h2 : ref.noffs = 0) :
    adjust_locref g σ ref ls = (σ, ref) := by
  simp [adjust_locref, h1, h2]

/-- Witness for C6: concrete evaluation on an offset-free reference. -/
theorem adjust_locref_identity_no_offsets_witness :
    adjust_locref
      ⟨fun _ _ => ([], []), fun _ => 0, fun _ _ => (0, 0), fun _ _ => 0⟩
      (fun _ => []) ⟨0, 0, 0⟩ [] = ((fun _ => []), ⟨0, 0, 0⟩) :=
  adjust_locref_identity_no_offsets
    ⟨fun _ _ => ([], []), fun _ => 0, fun _ _ => (0, 0), fun _ _ => 0⟩
    (fun _ => []) ⟨0, 0, 0⟩ [] rfl rfl

/-- C9: with a nonzero offset, `adjust_locref` writes the replacement
LRPs into the caller's own points list in place: the heap entry at the
ORIGINAL reference's pointer is updated to a list of the same length that
can differ from the original only at the written indices — index 0 when
poffs > 0, indices n-2 and n-1 when noffs > 0 — every other heap location
is untouched, the returned reference aliases the same pointer with
offsets cleared, and when the re-decode of the adjusted reference fails,
`adjust_locref_and_match` passes to `create_buffer_reader` the original
encoded reference object, whose points now resolve to the mutated list. -/
theorem adjust_locref_in_place (g : GeoOps) (σ : Heap) (ref : LocRefObj)
    (ls : List (ℚ × ℚ)) (matchFails : Heap → LocRefObj → Bool)
    (hoff : 0 < ref.poffs ∨ 0 < ref.noffs) :
    ∃ pts' : List LRP,
      adjust_locref g σ ref ls =
        (Function.update σ ref.ptr pts', ⟨ref.ptr, 0, 0⟩) ∧
      pts'.length = (σ ref.ptr).length ∧
      (∀ i, (0 < ref.poffs → i ≠ 0) →
        (0 < ref.noffs → i ≠ (σ ref.ptr).length - 2 ∧
          i ≠ (σ ref.ptr).length - 1) →
        pts'.get? i = (σ ref.ptr).get? i) ∧
      (∀ q, q ≠ ref.ptr → (adjust_locref g σ ref ls).1 q = σ q) ∧
      (matchFails (adjust_locref g σ ref ls).1
          (adjust_locref g σ ref ls).2 = true →
        adjust_locref_and_match_buffer_arg g matchFails σ ref ls =
          some (ref, pts')) := by
  have h0 : ¬ (ref.poffs = 0 ∧ ref.noffs = 0) := by
    rcases hoff with h | h
    · exact fun hc => absurd hc.1 (ne_of_gt h)
    · exact fun hc => absurd hc.2 (ne_of_gt h)
  have hout : adjust_locref g σ ref ls =
      (Function.update σ ref.ptr
        (adjusted_points g (σ ref.ptr) ref.poffs ref.noffs ls),
       ⟨ref.ptr, 0, 0⟩) := by
    simp [adjust_locref, h0]
  refine ⟨adjusted_points g (σ ref.ptr) ref.poffs ref.noffs ls, hout,
    ?_, ?_, ?_, ?_⟩
  · unfold adjusted_points
    by_cases hp : 0 < ref.poffs <;> by_cases hn : 0 < ref.noffs <;>
      simp [hp, hn, List.length_set]
  · intro i hip hin
    unfold adjusted_points
    by_cases hp : 0 < ref.poffs <;> by_cases hn : 0 < ref.noffs <;>
      simp only [hp, hn, if_true, if_false]
    · obtain ⟨hn2, hn1⟩ := hin hn
      have hi0 := hip hp
      rw [List.get?_set_ne _ _
          (by simp only [List.length_set]; omega :
            ((σ ref.ptr).set 0 _).length - 1 ≠ i),
        List.get?_set_ne _ _
          (by simp only [List.length_set]; omega :
            ((σ ref.ptr).set 0 _).length - 2 ≠ i),
        List.get?_set_ne _ _ (by omega : (0 : ℕ) ≠ i)]
    · have hi0 := hip hp
      rw [List.get?_set_ne _ _ (by omega : (0 : ℕ) ≠ i)]
    · obtain ⟨hn2, hn1⟩ := hin hn
      rw [List.get?_set_ne _ _ (by omega : (σ ref.ptr).length - 1 ≠ i),
        List.get?_set_ne _ _ (by omega : (σ ref.ptr).length - 2 ≠ i)]
  · intro q hq
    rw [hout]
    exact Function.update_noteq hq _ _
  · intro hfail
    show (if matchFails (adjust_locref g σ ref ls).1
        (adjust_locref g σ ref ls).2 then
      some (ref, (adjust_locref g σ ref ls).1 ref.ptr) else none) =
      some (ref, adjusted_points g (σ ref.ptr) ref.poffs ref.noffs ls)
    rw [if_pos hfail, hout]
    simp [Function.update_same]

/-- Witness for C9: a concrete two-point reference with poffs = 5 whose
points list is observably rewritten through the original pointer. -/
theorem adjust_locref_in_place_witness :
    ∃ pts' : List LRP,
      adjust_locref
          ⟨fun _ _ => ([(3, 4)], [(5, 6)]), fun _ => 7, fun _ _ => (0, 0),
            fun _ _ => 0⟩
          (fun _ => [⟨0, 0, 1, 2, 3, 4, 5⟩, ⟨1, 1, 1, 2, 3, 4, 5⟩])
          ⟨0, 5, 0⟩ [(0, 0), (1, 1)] =
        (Function.update
          (fun _ => [⟨0, 0, 1, 2, 3, 4, 5⟩, ⟨1, 1, 1, 2, 3, 4, 5⟩]) 0 pts',
         ⟨0, 0, 0⟩) ∧
      pts'.length =
        ((fun _ => [⟨0, 0, 1, 2, 3, 4, 5⟩, ⟨1, 1, 1, 2, 3, 4, 5⟩] :
          Heap) 0).length ∧
      (∀ i, (0 < (5 : ℚ) → i ≠ 0) →
        (0 < (0 : ℚ) → i ≠ 0 ∧ i ≠ 1) →
        pts'.get? i =
          [⟨0, 0, 1, 2, 3, 4, 5⟩, (⟨1, 1, 1, 2, 3, 4, 5⟩ : LRP)].get? i) ∧
      (∀ q, q ≠ 0 →
        (adjust_locref
          ⟨fun _ _ => ([(3, 4)], [(5, 6)]), fun _ => 7, fun _ _ => (0, 0),
            fun _ _ => 0⟩
          (fun _ => [⟨0, 0, 1, 2, 3, 4, 5⟩, ⟨1, 1, 1, 2, 3, 4, 5⟩])
          ⟨0, 5, 0⟩ [(0, 0), (1, 1)]).1 q =
          [⟨0, 0, 1, 2, 3, 4, 5⟩, ⟨1, 1, 1, 2, 3, 4, 5⟩]) ∧
      ((fun _ _ => true : Heap → LocRefObj → Bool)
          (adjust_locref
            ⟨fun _ _ => ([(3, 4)], [(5, 6)]), fun _ => 7, fun _ _ => (0, 0),
              fun _ _ => 0⟩
            (fun _ => [⟨0, 0, 1, 2, 3, 4, 5⟩, ⟨1, 1, 1, 2, 3, 4, 5⟩])
            ⟨0, 5, 0⟩ [(0, 0), (1, 1)]).1
          (adjust_locref
            ⟨fun _ _ => ([(3, 4)], [(5, 6)]), fun _ => 7, fun _ _ => (0, 0),
              fun _ _ => 0⟩
            (fun _ => [⟨0, 0, 1, 2, 3, 4, 5⟩, ⟨1, 1, 1, 2, 3, 4, 5⟩])
            ⟨0, 5, 0⟩ [(0, 0), (1, 1)]).2 = true →
        adjust_locref_and_match_buffer_arg
          ⟨fun _ _ => ([(3, 4)], [(5, 6)]), fun _ => 7, fun _ _ => (0, 0),
            fun _ _ => 0⟩
          (fun _ _ => true)
          (fun _ => [⟨0, 0, 1, 2, 3, 4, 5⟩, ⟨1, 1, 1, 2, 3, 4, 5⟩])
          ⟨0, 5, 0⟩ [(0, 0), (1, 1)] = some (⟨0, 5, 0⟩, pts')) :=
  adjust_locref_in_place
    ⟨fun _ _ => ([(3, 4)], [(5, 6)]), fun _ => 7, fun _ _ => (0, 0),
      fun _ _ => 0⟩
    (fun _ => [⟨0, 0, 1, 2, 3, 4, 5⟩, ⟨1, 1, 1, 2, 3, 4, 5⟩])
    ⟨0, 5, 0⟩ [(0, 0), (1, 1)] (fun _ _ => true)
    (Or.inl (by norm_num))

/-- C7 (code-bug evidence): for a record whose analysis raises, the
worker does NOT emit an UNKNOWN_ERROR verdict and does NOT continue: the
except handler calls the five-parameter `enqueue` with only three
arguments, so a TypeError is raised inside the handler, propagates, and
terminates the loop with every later record unprocessed. -/
theorem worker_exception_typeerror (m : WorkMsg) (rest : List WorkMsg)
    (hr : m.raises = true) :
    worker_loop (m :: rest) = .error .typeError := by
  simp [worker_loop, worker_handle, hr, enqueue]

/-- Witness for C7: concrete evaluation on a raising record followed by a
healthy one. -/
theorem worker_exception_typeerror_witness :
    worker_loop [⟨"A", "c", 1, true, .OK, 1⟩, ⟨"B", "c", 1, false, .OK, 1⟩]
      = .error .typeError :=
  worker_exception_typeerror ⟨"A", "c", 1, true, .OK, 1⟩
    [⟨"B", "c", 1, false, .OK, 1⟩] rfl

/-- Polyline length is nonnegative. -/
theorem len1_nonneg (l : List ℚ) : 0 ≤ len1 l := by
  induction l with
  | nil => simp [len1]
  | cons x r ih =>
    cases r with
    | nil => simp [len1]
    | cons y s =>
      simp only [len1]
      have := abs_nonneg (y - x)
      linarith [ih]

/-- Splitting at or past the end of the polyline leaves no tail. -/
theorem splitTail_none (d : ℚ) (pts : List ℚ) (h : len1 pts ≤ d) :
    splitTail d pts = none := by
  induction pts generalizing d with
  | nil => rfl
  | cons x r ih =>
    cases r with
    | nil => rfl
    | cons y s =>
      simp only [len1] at h
      have h1 : ¬ d < |y - x| := by
        have := len1_nonneg (y :: s)
        push_neg
        linarith
      simp only [splitTail, h1, if_false]
      exact ih (d - |y - x|) (by linarith)

/-- A successful split leaves a tail of the remaining, strictly positive
length. -/
theorem splitTail_some (d : ℚ) (pts t : List ℚ)
    (h : splitTail d pts = some t) :
    len1 t = len1 pts - d ∧ 0 < len1 t := by
  induction pts generalizing d with
  | nil => simp [splitTail] at h
  | cons x r ih =>
    cases r with
    | nil => simp [splitTail] at h
    | cons y s =>
      by_cases hd : d < |y - x|
      · simp only [splitTail, hd, if_true, Option.some.injEq] at h
        subst h
        have habs : |y - (x + if x ≤ y then d else -d)| = |y - x| - d := by
          by_cases hxy : x ≤ y
          · have hd' : d < y - x := by
              rwa [abs_of_nonneg (sub_nonneg.mpr hxy)] at hd
            rw [if_pos hxy, abs_of_nonneg (sub_nonneg.mpr hxy),
              abs_of_nonneg (by linarith : (0 : ℚ) ≤ y - (x + d))]
            ring
          · push_neg at hxy
            have hd' : d < x - y := by
              rw [abs_of_nonpos (by linarith : y - x ≤ 0)] at hd
              linarith
            rw [if_neg (not_le.mpr hxy),
              abs_of_nonpos (by linarith : y - (x + -d) ≤ 0),
              abs_of_nonpos (by linarith : y - x ≤ 0)]
            ring
        constructor
        · simp only [len1, habs]
          ring
        · simp only [len1, habs]
          have h0 : 0 ≤ len1 (y :: s) := len1_nonneg _
          linarith
      · simp only [splitTail, hd, if_false] at h
        obtain ⟨h1, h2⟩ := ih (d - |y - x|) h
        refine ⟨?_, h2⟩
        simp only [len1]
        linarith

/-- Splitting a polyline at an interior vertex adds lengths. -/
theorem len1_append (a b : List ℚ) (y : ℚ) :
    len1 (a ++ y :: b) = len1 (a ++ [y]) + len1 (y :: b) := by
  induction a with
  | nil => simp [len1]
  | cons z s ih =>
    cases s with
    | nil =>
      simp only [List.cons_append, List.nil_append, len1]
      ring
    | cons w s2 =>
      simp only [List.cons_append, List.append_eq, len1] at ih ⊢
      linarith

/-- Reversal preserves polyline length. -/
theorem len1_reverse (l : List ℚ) : len1 l.reverse = len1 l := by
  induction l with
  | nil => rfl
  | cons x r ih =>
    cases r with
    | nil => rfl
    | cons y s =>
      have hrev : (x :: y :: s).reverse = s.reverse ++ y :: [x] := by
        simp [List.append_assoc]
      rw [hrev, len1_append]
      have hrev2 : (y :: s).reverse = s.reverse ++ [y] := by simp
      rw [hrev2] at ih
      rw [ih] at *
      simp only [len1, abs_sub_comm x y]
      rw [hrev2] at *
      simp only [len1] at *
      linarith [ih]

/-- C8 counterexample: a decoded location of total length 10 with
p_off = 10 and n_off = 0 satisfies p_off + n_off >= sum of lengths, yet
build_decoded_ls returns the final 1-meter segment [9, 10] — NOT a
zero-length degenerate LineString (the code reduces the offsets to keep
at least 1 meter, per its own docstring); and the covers guard does not
prevent division by zero: an environment whose decoded geometry has
length 0 and is not covered by the buffer reaches the fraction division
and raises (modelled as `none`). -/
theorem build_decoded_ls_counterexample :
    build_decoded_ls [⟨[0, 10], 10⟩] 10 0 = [9, 10] ∧
    (9 : ℚ) ≠ 10 ∧
    analyze ⟨false, true, true, some ⟨2, 0, false, 0, 0, .OK, .OK⟩, .OK⟩ =
      none := by
  refine ⟨?_, by norm_num, ?_⟩
  · norm_num [build_decoded_ls, joinLines, splitTail, cut_back]
  · norm_num [analyze]

/-- C8 (amended): when p_off + n_off exceeds the sum of the lines'
lengths by at least 2 meters, build_decoded_ls does collapse the decoded
LineString to a zero-length degenerate line (for smaller excess the
offsets are reduced to keep the line about 1 meter long instead); and the
covers check guards the fraction division only for geometries it covers —
a zero-length decoded geometry NOT covered by the buffer reaches the
division with a zero denominator and the analyzer raises. -/
theorem build_decoded_ls_degenerate_excess :
    (∀ (lines : List DecodedLine) (p n : ℚ),
      0 < (lines.map (fun l => l.length)).sum →
      len1 (joinLines (lines.map (fun l => l.geometry))) =
        (lines.map (fun l => l.length)).sum →
      (lines.map (fun l => l.length)).sum + 2 ≤ p + n →
      ∃ c, build_decoded_ls lines p n = [c, c]) ∧
    (∀ env m, env.matched = some m → m.covers = false →
      m.decoded_len = 0 →
      ¬ (env.bounds_present = true ∧ env.bounds_cover = false) →
      ¬ env.is_line_location = false →
      analyze env = none) := by
  constructor
  · intro lines p n hL hlen hexc
    set L := (lines.map (fun l => l.length)).sum with hLdef
    set ls := joinLines (lines.map (fun l => l.geometry)) with hlsdef
    have hor : 0 < p ∨ 0 < n := by
      by_contra hcon
      push_neg at hcon
      linarith [hcon.1, hcon.2]
    have hcond : L - p - n < 1 := by linarith
    have hadd : max ((p + n - L) / 2) 1 = (p + n - L) / 2 :=
      max_eq_left (by linarith)
    simp only [build_decoded_ls]
    rw [if_pos hor]
    simp only [if_pos hcond, hadd]
    set e2 := (p + n - L) / 2 with he2
    have he2' : 2 * e2 = p + n - L := by rw [he2]; ring
    by_cases hcase : 0 < p - e2
    · simp only [max_eq_left hcase.le]
      rw [if_pos hcase]
      cases hsp : splitTail (p - e2) ls with
      | none => exact ⟨ls.getLastI, rfl⟩
      | some front =>
        obtain ⟨hfl, hfp⟩ := splitTail_some _ _ _ hsp
        rw [hlen] at hfl
        have hne2 : n - e2 = len1 front := by rw [hfl]; linarith
        have hpos2 : 0 < n - e2 := by rw [hne2]; exact hfp
        show ∃ c, cut_back (max (n - e2) 0) front = [c, c]
        rw [max_eq_left hpos2.le]
        have hnone : splitTail (n - e2) front.reverse = none :=
          splitTail_none _ _ (by rw [len1_reverse]; linarith [hne2])
        unfold cut_back
        rw [if_pos hpos2, hnone]
        exact ⟨front.headI, rfl⟩
    · push_neg at hcase
      simp only [max_eq_right hcase]
      rw [if_neg (lt_irrefl 0)]
      have hge : L ≤ n - e2 := by linarith
      have hpos2 : 0 < n - e2 := lt_of_lt_of_le hL hge
      show ∃ c, cut_back (max (n - e2) 0) ls = [c, c]
      rw [max_eq_left hpos2.le]
      have hnone : splitTail (n - e2) ls.reverse = none :=
        splitTail_none _ _ (by rw [len1_reverse, hlen]; exact hge)
      unfold cut_back
      rw [if_pos hpos2, hnone]
      exact ⟨ls.headI, rfl⟩
  · intro env m hm hcov hz hb hl
    unfold analyze
    rw [if_neg hb, if_neg hl, hm]
    simp only []
    rw [if_neg (by simp [hcov]), if_pos hz]

/-- Witness for C8 (amended): a single 10-meter line with p_off = 12
collapses to a degenerate LineString, and a concrete zero-length
non-covered environment reaches the division. -/
theorem build_decoded_ls_degenerate_excess_witness :
    (∃ c, build_decoded_ls [⟨[0, 10], 10⟩] 12 0 = [c, c]) ∧
    analyze ⟨false, true, true, some ⟨2, 0, false, 0, 0, .OK, .OK⟩, .OK⟩ =
      none :=
  ⟨build_decoded_ls_degenerate_excess.1 [⟨[0, 10], 10⟩] 12 0
      (by norm_num) (by norm_num [len1, joinLines]) (by norm_num),
   build_decoded_ls_degenerate_excess.2
      ⟨false, true, true, some ⟨2, 0, false, 0, 0, .OK, .OK⟩, .OK⟩
      ⟨2, 0, false, 0, 0, .OK, .OK⟩ rfl rfl rfl (by simp) (by simp)⟩

/-- C10: `find_nodes_close_to` returns exactly the Nodes with
`contained_in_buffer` true whose distance to the query coordinate is
strictly less than `dist`; the result is the same filter for every query
coordinate — in contrast to `find_lines_close_to` there is no entry/exit
exception when the coordinate is a terminal LRP coordinate. -/
theorem find_nodes_close_to_spec (d : (ℚ × ℚ) → (ℚ × ℚ) → ℚ)
    (nodes : List BNode) (coord : ℚ × ℚ) (dist : ℚ) (nd : BNode) :
    nd ∈ find_nodes_close_to d nodes coord dist ↔
      nd ∈ nodes ∧ nd.contained_in_buffer = true ∧ d coord nd.coord < dist := by
  simp [find_nodes_close_to, List.mem_filter, and_assoc]

end ODAT
